import Mathlib

/-!
Shallow embedding of `aw_qt/manager.py`: the executable locator, the module
discoverer, the `Module` process-lifecycle state machine and the `Manager`
registry.  Filesystem and environment effects are abstracted into an explicit
`Env` record; the Python functions become pure Lean functions over `Env` and
the mutable objects become explicit state passing.  `os.listdir` (which raises
on an unlistable directory) and `os.environ["PATH"]` (which raises when unset)
are modelled with `Option`, and functions that can propagate such an exception
return `Except String`.
-/

namespace AwQt

/-! ### String helpers (Python `str.split`, `in`, `os.path` operations) -/

/-- Auxiliary for `splitChar`: accumulates the current chunk (reversed). -/
def splitCharAux (c : Char) : List Char → List Char → List String
  | [], acc => [String.mk acc.reverse]
  | x :: rest, acc =>
      if x = c then String.mk acc.reverse :: splitCharAux c rest []
      else splitCharAux c rest (x :: acc)

/-- Python `s.split(c)` for a single-character separator: used for
`os.environ["PATH"].split(":")` (manager.py line 69). -/
def splitChar (c : Char) (s : String) : List String := splitCharAux c s.toList []

/-- Does `pat` occur at the start of the text? -/
def beginsWith : List Char → List Char → Bool
  | [], _ => true
  | _ :: _, [] => false
  | p :: ps, t :: ts => (p == t) && beginsWith ps ts

/-- Does `pat` occur anywhere in the text?  Models Python's substring test
`pat in s` (manager.py line 74: `"aw-" in filename`). -/
def occursIn (pat : List Char) : List Char → Bool
  | [] => pat.isEmpty
  | t :: ts => beginsWith pat (t :: ts) || occursIn pat ts

/-- Python `os.path.join(dir, name)` for a relative `name` on POSIX. -/
def joinPath (dir name : String) : String := dir ++ "/" ++ name

/-- Python `os.path.basename` on POSIX: the part after the last `/`. -/
def basename (p : String) : String := (splitChar '/' p).getLastD ""

/-! ### The effect environment

`Env` packages every filesystem / OS query the supervisor performs, so the
Python functions become pure functions of an `Env`. -/

structure Env where
  /-- `_module_dir` (manager.py line 14): the directory of `manager.py`. -/
  moduleDir : String
  /-- `_parent_dir` (manager.py line 15): the parent of `moduleDir`. -/
  parentDir : String
  /-- `os.path.isfile p` -/
  isFile : String → Bool
  /-- `os.access(p, os.X_OK)` -/
  isExecX : String → Bool
  /-- `glob(pattern)`: the list of paths matching the pattern.  `glob` never
  raises on a missing directory; it returns a (possibly empty) list. -/
  glob : String → List String
  /-- `shutil.which name`: `true` iff an executable named `name` is found on
  the system search path (so `shutil.which(name) is not None`). -/
  whichOk : String → Bool
  /-- `os.environ["PATH"]`: `none` models the variable being unset (in which
  case the Python lookup raises `KeyError`). -/
  pathVar : Option String
  /-- `os.listdir p`: `none` models the call raising (e.g. `FileNotFoundError`
  for a directory that does not exist or cannot be listed). -/
  listdir : String → Option (List String)

/-- `_search_paths` (manager.py line 16): `[_module_dir, _parent_dir]`. -/
def _search_paths (env : Env) : List String := [env.moduleDir, env.parentDir]

/-! ### Locator (manager.py lines 19-49) -/

/-- `_locate_bundled_executable` (manager.py lines 19-27): the first path
`os.path.join(path, name)` for `path` in `_search_paths` that is a regular
file, else `None` (the Python function falls off the end). -/
def _locate_bundled_executable (env : Env) (name : String) : Option String :=
  ((_search_paths env).map (fun path => joinPath path name)).find?
    (fun p => env.isFile p)

/-- `_is_system_module` (manager.py lines 30-32): `shutil.which(name) is not None`. -/
def _is_system_module (env : Env) (name : String) : Bool := env.whichOk name

/-- `_locate_executable` (manager.py lines 35-49): bundled path if any, else
the bare `name` when it is on PATH, else (after a logged warning) `None`. -/
def _locate_executable (env : Env) (name : String) : Option String :=
  match _locate_bundled_executable env name with
  | some exec_path => some exec_path
  | none =>
      if _is_system_module env name then some name
      else none

/-! ### Discoverer (manager.py lines 52-78) -/

/-- `_discover_modules_bundled` (manager.py lines 52-65): for each search path,
glob `aw-*`; keep the basenames of matches that are regular files with the
execute bit (others are only warned about). -/
def _discover_modules_bundled (env : Env) : List String :=
  (_search_paths env).flatMap (fun path =>
    (env.glob (joinPath path "aw-*")).filterMap (fun m =>
      if env.isFile m && env.isExecX m then some (basename m) else none))

/-- Lists every directory in order, concatenating the entries; stops with
`.error p` at the first directory `p` whose `os.listdir` raises, exactly as
the Python `for` loop at manager.py lines 71-72 would propagate the exception. -/
def listdirAll (env : Env) : List String → Except String (List String)
  | [] => .ok []
  | p :: rest =>
      match env.listdir p with
      | none => .error p
      | some files =>
          match listdirAll env rest with
          | .error e => .error e
          | .ok others => .ok (files ++ others)

/-- `_discover_modules_system` (manager.py lines 68-78): split PATH on `:`,
list every directory (any `os.listdir` failure propagates, as does a missing
PATH), and keep the filenames containing the substring `"aw-"`.  There is no
executability check in this pass. -/
def _discover_modules_system (env : Env) : Except String (List String) :=
  match env.pathVar with
  | none => .error "KeyError: PATH"
  | some pv =>
      match listdirAll env (splitChar ':' pv) with
      | .error e => .error e
      | .ok files => .ok (files.filter (fun f => occursIn "aw-".toList f.toList))

/-! ### Module (manager.py lines 81-156) -/

/-- A `subprocess.Popen` handle.  `returncodeIsNone = true` models
`p.returncode is None` after `p.poll()`, i.e. the process still running. -/
structure Popen where
  returncodeIsNone : Bool
deriving DecidableEq, Repr

structure Module where
  name : String
  started : Bool
  testing : Bool
  /-- `self._process` -/
  process : Option Popen
  /-- `self._last_process` -/
  lastProcess : Option Popen
deriving DecidableEq, Repr

/-- `Module.__init__` (manager.py lines 82-87). -/
def Module.init (name : String) (testing : Bool) : Module :=
  { name := name, started := false, testing := testing,
    process := none, lastProcess := none }

/-- `Module.is_alive` (manager.py lines 141-147): `false` when there is no
current handle, else poll and report whether `returncode` is still `None`. -/
def Module.is_alive (m : Module) : Bool :=
  match m.process with
  | none => false
  | some p => p.returncodeIsNone

/-- `Module.start` (manager.py lines 89-111).  The `os.setpgrp()` call is a
process-wide side effect with no bearing on the `Module` state and is not
modelled.  If the locator returns `None` the method returns with the object
untouched; otherwise `Popen` spawns a fresh process (running, so its
`returncode` is `None`) and `started` is set. -/
def Module.start (env : Env) (m : Module) : Module :=
  match _locate_executable env m.name with
  | none => m
  | some _ =>
      { m with process := some { returncodeIsNone := true }, started := true }

/-- `Module.stop` (manager.py lines 113-133).  If not `started`: warn and
return unchanged.  Otherwise, when the process is still alive, `terminate()`
then `wait()` leave it with a set `returncode`; in both remaining branches the
method then runs lines 130-133: the (now dead) current handle moves to
`_last_process`, `_process` is cleared and `started` is reset.  The `assert
not self.is_alive()` at line 130 holds on both paths. -/
def Module.stop (m : Module) : Module :=
  if m.started = false then m
  else if m.is_alive = false then
    { m with lastProcess := m.process, process := none, started := false }
  else
    { m with
      lastProcess := m.process.map (fun p => { p with returncodeIsNone := false }),
      process := none, started := false }

/-- `Module.toggle` (manager.py lines 135-139). -/
def Module.toggle (env : Env) (m : Module) : Module :=
  if m.started then m.stop else m.start env

/-! ### Manager (manager.py lines 159-201)

`self.modules` is a `dict`; we model it as an insertion-ordered association
list with unique keys (lookups take the first matching key, as a dict's unique
keys make the two agree). -/

structure Manager where
  testing : Bool
  modules : List (String × Module)
deriving DecidableEq, Repr

/-- Python `k in self.modules` (dict key membership). -/
def hasKey (ms : List (String × Module)) (n : String) : Bool :=
  ms.any (fun kv => kv.1 == n)

/-- Python `self.modules[k]` (first — only — entry with key `k`). -/
def dictGet (ms : List (String × Module)) (k : String) : Option Module :=
  match ms with
  | [] => none
  | kv :: rest => if kv.1 == k then some kv.2 else dictGet rest k

/-- The body of the loop at manager.py lines 177-179: insert a fresh
`Module(m_name, testing)` when `m_name` is not already a key. -/
def insertNew (testing : Bool) (ms : List (String × Module)) (n : String) :
    List (String × Module) :=
  if hasKey ms n then ms else ms ++ [(n, Module.init n testing)]

/-- The hardcoded required set (manager.py lines 168-172). -/
def requiredSet : List String := ["aw-server", "aw-watcher-afk", "aw-watcher-window"]

/-- `found_modules ^= {"aw-qt"}` (manager.py line 175): symmetric difference
with the singleton — it removes `"aw-qt"` when present and ADDS it when
absent. -/
def toggleSelf (s : List String) : List String :=
  if s.contains "aw-qt" then s.filter (fun x => x != "aw-qt") else s ++ ["aw-qt"]

/-- The value of `found_modules` after manager.py lines 168-175, given the
result `sys` of the system pass.  Python's `set` has no specified iteration
order; we enumerate it as a duplicate-free list (membership is what matters,
and every theorem below only depends on membership). -/
def foundModules (env : Env) (sys : List String) : List String :=
  toggleSelf ((requiredSet ++ _discover_modules_bundled env ++ sys).dedup)

/-- `Manager.discover_modules` (manager.py lines 166-179).  The system pass
runs inside it, so an exception from `os.listdir` propagates out of
`discover_modules` itself. -/
def Manager.discover_modules (env : Env) (mgr : Manager) : Except String Manager :=
  match _discover_modules_system env with
  | .error e => .error e
  | .ok sys =>
      .ok { mgr with
            modules := (foundModules env sys).foldl (insertNew mgr.testing) mgr.modules }

/-- `Manager.get_unexpected_stops` (manager.py lines 181-182). -/
def Manager.get_unexpected_stops (mgr : Manager) : List Module :=
  (mgr.modules.map Prod.snd).filter (fun x => x.started && !x.is_alive)

/-- `Manager.start` (manager.py lines 184-188): look the name up; on a miss
log an error and do nothing, otherwise call that module's `start`. -/
def Manager.start (env : Env) (mgr : Manager) (module_name : String) : Manager :=
  if hasKey mgr.modules module_name then
    { mgr with modules := mgr.modules.map (fun kv =>
        if kv.1 == module_name then (kv.1, kv.2.start env) else kv) }
  else mgr

/-- The sequence of names `Manager.autostart` passes to `self.start`, in call
order (manager.py lines 190-197): `"aw-server"` first when requested, then the
set difference `set(autostart_modules) - {"aw-server"}`, enumerated here as a
duplicate-free list (Python's set iteration order is unspecified). -/
def Manager.autostart_trace (autostart_modules : List String) : List String :=
  (if autostart_modules.contains "aw-server" then ["aw-server"] else []) ++
    autostart_modules.dedup.filter (fun n => n != "aw-server")

/-- `Manager.autostart` (manager.py lines 190-197), as sequential state
passing: each `start` completes before the next begins. -/
def Manager.autostart (env : Env) (mgr : Manager) (autostart_modules : List String) :
    Manager :=
  (Manager.autostart_trace autostart_modules).foldl
    (fun acc n => Manager.start env acc n) mgr

/-- `Manager.stop_all` (manager.py lines 199-201): `stop()` exactly the
modules that are currently alive; the rest are left untouched. -/
def Manager.stop_all (mgr : Manager) : Manager :=
  { mgr with modules := mgr.modules.map (fun kv =>
      if kv.2.is_alive then (kv.1, kv.2.stop) else kv) }

/-! ### Auxiliary definitions used by the theorems below -/

/-- Did an `Except`-returning operation return normally? -/
def isOkB {α : Type} (e : Except String α) : Bool :=
  match e with
  | .ok _ => true
  | .error _ => false

/-- The (deterministic enumeration of the) set difference
`set(autostart_modules) - {"aw-server"}` iterated by the loop at manager.py
lines 195-197. -/
def autostartRest (autostart_modules : List String) : List String :=
  autostart_modules.dedup.filter (fun n => n != "aw-server")

/-! ### Concrete environments and states for evaluation -/

/-- An environment in which no executable exists anywhere: both bundled
directories are empty, nothing is on PATH, and the single PATH directory
lists as empty. -/
def envNothing : Env :=
  { moduleDir := "/opt/activitywatch/aw_qt", parentDir := "/opt/activitywatch",
    isFile := fun _ => false, isExecX := fun _ => false,
    glob := fun _ => [], whichOk := fun _ => false,
    pathVar := some "/usr/bin", listdir := fun _ => some [] }

/-- Like `envNothing` but PATH names a directory that cannot be listed
(`os.listdir` raises on it). -/
def envBadPath : Env :=
  { envNothing with pathVar := some "/does-not-exist", listdir := fun _ => none }

/-- Like `envNothing` but `shutil.which` finds exactly `aw-server`. -/
def envServerOnPath : Env :=
  { envNothing with whichOk := fun n => n == "aw-server" }

def mgrEmpty : Manager := { testing := false, modules := [] }

/-- A module that was started and whose process is still running. -/
def mRunning : Module :=
  { name := "aw-server", started := true, testing := false,
    process := some { returncodeIsNone := true }, lastProcess := none }

/-- A module that was started but whose process has terminated on its own. -/
def mCrashed : Module :=
  { name := "aw-watcher-afk", started := true, testing := false,
    process := some { returncodeIsNone := false }, lastProcess := none }

/-- A registry already holding a running `aw-server` entry. -/
def mgrPre : Manager := { testing := false, modules := [("aw-server", mRunning)] }

/-- The registry `mgrPre` after one discovery pass in `envNothing`. -/
def mgrPost : Manager :=
  match Manager.discover_modules envNothing mgrPre with
  | .ok m => m
  | .error _ => mgrPre

/-- The empty registry after one discovery pass in `envNothing`. -/
def mgrRes : Manager :=
  match Manager.discover_modules envNothing mgrEmpty with
  | .ok m => m
  | .error _ => mgrEmpty

/-- A registry holding one crashed module. -/
def mgrCrashed : Manager := { testing := false, modules := [("aw-watcher-afk", mCrashed)] }

/-! ### Helper lemmas about the registry's insertion fold -/

theorem dictGet_append_left {ms ms2 : List (String × Module)} {k : String}
    {v : Module} (h : dictGet ms k = some v) : dictGet (ms ++ ms2) k = some v := by
  induction ms with
  | nil => simp [dictGet] at h
  | cons kv rest ih =>
      cases hbe : (kv.1 == k) with
      | true => simpa [dictGet, hbe] using (by simpa [dictGet, hbe] using h : kv.2 = v)
      | false =>
          rw [List.cons_append]
          simp only [dictGet, hbe, Bool.false_eq_true, if_false] at h ⊢
          exact ih h

theorem insertNew_of_hasKey {ms : List (String × Module)} {n : String} (t : Bool)
    (h : hasKey ms n = true) : insertNew t ms n = ms := by
  simp [insertNew, h]

theorem hasKey_insertNew_self (t : Bool) (ms : List (String × Module)) (n : String) :
    hasKey (insertNew t ms n) n = true := by
  unfold insertNew
  by_cases h : hasKey ms n
  · rw [if_pos h]; exact h
  · rw [if_neg h]
    unfold hasKey
    rw [List.any_append]
    simp

theorem hasKey_insertNew_mono {ms : List (String × Module)} {k : String}
    (t : Bool) (n : String) (h : hasKey ms k = true) :
    hasKey (insertNew t ms n) k = true := by
  by_cases hn : hasKey ms n
  · rw [insertNew_of_hasKey t hn]; exact h
  · unfold insertNew
    rw [if_neg hn]
    unfold hasKey at h ⊢
    rw [List.any_append, h, Bool.true_or]

theorem hasKey_foldl_mono {k : String} (t : Bool) (found : List String) :
    ∀ ms : List (String × Module), hasKey ms k = true →
      hasKey (found.foldl (insertNew t) ms) k = true := by
  induction found with
  | nil => intro ms h; simpa using h
  | cons n rest ih =>
      intro ms h
      exact ih (insertNew t ms n) (hasKey_insertNew_mono t n h)

theorem hasKey_foldl_mem {n : String} (t : Bool) {found : List String}
    (h : n ∈ found) :
    ∀ ms : List (String × Module), hasKey (found.foldl (insertNew t) ms) n = true := by
  induction found with
  | nil => cases h
  | cons n' rest ih =>
      intro ms
      rcases List.mem_cons.mp h with h' | h'
      · subst h'
        exact hasKey_foldl_mono t rest (insertNew t ms n) (hasKey_insertNew_self t ms n)
      · exact ih h' (insertNew t ms n')

theorem foldl_insertNew_of_all (t : Bool) {found : List String} :
    ∀ ms : List (String × Module), (∀ n ∈ found, hasKey ms n = true) →
      found.foldl (insertNew t) ms = ms := by
  induction found with
  | nil => intro ms _; rfl
  | cons n rest ih =>
      intro ms h
      rw [List.foldl_cons, insertNew_of_hasKey t (h n (List.mem_cons_self n rest))]
      exact ih ms (fun n' hn' => h n' (List.mem_cons_of_mem n hn'))

theorem dictGet_insertNew {ms : List (String × Module)} {k : String} {v : Module}
    (t : Bool) (n : String) (h : dictGet ms k = some v) :
    dictGet (insertNew t ms n) k = some v := by
  by_cases hn : hasKey ms n
  · simpa [insertNew, hn] using h
  · simp only [insertNew, hn, Bool.false_eq_true, if_false]
    exact dictGet_append_left h

theorem dictGet_foldl {k : String} {v : Module} (t : Bool) (found : List String) :
    ∀ ms : List (String × Module), dictGet ms k = some v →
      dictGet (found.foldl (insertNew t) ms) k = some v := by
  induction found with
  | nil => intro ms h; simpa using h
  | cons n rest ih =>
      intro ms h
      exact ih (insertNew t ms n) (dictGet_insertNew t n h)

/-- Lists every directory on a fully listable search path successfully. -/
theorem listdirAll_ok_of_listable (env : Env) :
    ∀ paths : List String, (∀ p ∈ paths, (env.listdir p).isSome = true) →
      ∃ files, listdirAll env paths = .ok files := by
  intro paths
  induction paths with
  | nil => exact fun _ => ⟨[], rfl⟩
  | cons p rest ih =>
      intro hall
      obtain ⟨files, hfiles⟩ :=
        Option.isSome_iff_exists.mp (hall p (List.mem_cons_self p rest))
      obtain ⟨others, hothers⟩ := ih (fun q hq => hall q (List.mem_cons_of_mem p hq))
      refine ⟨files ++ others, ?_⟩
      unfold listdirAll
      rw [hfiles, hothers]

/-! ### The claims -/

/-- C1 (refuting evaluation): in an environment where no executable named
`aw-qt` exists anywhere — empty bundled directories, empty PATH directory,
nothing found by `which` — `discover_modules` nevertheless ends with `aw-qt`
as a key of the modules mapping: line 175's `found_modules ^= {"aw-qt"}` is a
symmetric difference, which ADDS the name when it was not discovered, despite
the adjacent comment saying the intent is to exclude self. -/
theorem discover_modules_inserts_own_name :
    (Manager.discover_modules envNothing mgrEmpty).map
        (fun mgr => hasKey mgr.modules "aw-qt") = .ok true := rfl

/-- C2 (counterexample): with `PATH=/does-not-exist` and that directory
unlistable, `_discover_modules_system` propagates the `os.listdir` exception —
and so does `discover_modules`, which calls it. -/
theorem discover_modules_system_raises_on_unlistable :
    _discover_modules_system envBadPath = .error "/does-not-exist" ∧
      Manager.discover_modules envBadPath mgrEmpty = .error "/does-not-exist" :=
  ⟨rfl, rfl⟩

/-- C2 (amended): the system discovery pass returns normally whenever the PATH
variable is set and every directory it names can be listed; under those
hypotheses `discover_modules` also returns normally.  (When a directory cannot
be listed the exception propagates — see the counterexample above — and
non-executable entries are not skipped but included, since the pass applies no
executability check.) -/
theorem discover_modules_system_ok_of_listable (env : Env) (pv : String)
    (mgr : Manager) (hp : env.pathVar = some pv)
    (hl : ∀ p ∈ splitChar ':' pv, (env.listdir p).isSome = true) :
    isOkB (_discover_modules_system env) = true ∧
      isOkB (Manager.discover_modules env mgr) = true := by
  obtain ⟨files, hfiles⟩ := listdirAll_ok_of_listable env (splitChar ':' pv) hl
  have hsys : _discover_modules_system env =
      .ok (files.filter (fun f => occursIn "aw-".toList f.toList)) := by
    unfold _discover_modules_system
    rw [hp]
    show (match listdirAll env (splitChar ':' pv) with
          | Except.error e => Except.error e
          | Except.ok fs =>
              Except.ok (fs.filter (fun (f : String) => occursIn "aw-".toList f.toList))) =
        Except.ok (files.filter (fun (f : String) => occursIn "aw-".toList f.toList))
    rw [hfiles]
  constructor
  · rw [hsys]; rfl
  · unfold Manager.discover_modules
    rw [hsys]
    rfl

theorem discover_modules_system_ok_witness :
    isOkB (_discover_modules_system envNothing) = true ∧
      isOkB (Manager.discover_modules envNothing mgrEmpty) = true :=
  discover_modules_system_ok_of_listable envNothing "/usr/bin" mgrEmpty rfl
    (by decide)

/-- C3: for a fixed environment, `discover_modules` is idempotent (running it
on its own output is the identity, so running it twice yields the same mapping
as running it once) and additive (every entry present before the run is still
mapped to the very same `Module` value afterwards; only previously-unseen
names are inserted). -/
theorem discover_modules_idempotent_additive (env : Env) (mgr mgr' : Manager)
    (h : Manager.discover_modules env mgr = .ok mgr') :
    Manager.discover_modules env mgr' = .ok mgr' ∧
      ∀ k v, dictGet mgr.modules k = some v → dictGet mgr'.modules k = some v := by
  cases hsys : _discover_modules_system env with
  | error e =>
      unfold Manager.discover_modules at h
      rw [hsys] at h
      cases h
  | ok sys =>
      unfold Manager.discover_modules at h
      rw [hsys] at h
      injection h with h
      constructor
      · unfold Manager.discover_modules
        rw [hsys]
        have hall : ∀ n ∈ foundModules env sys, hasKey mgr'.modules n = true := by
          intro n hn
          rw [← h]
          exact hasKey_foldl_mem mgr.testing hn mgr.modules
        show Except.ok
            { mgr' with
              modules := (foundModules env sys).foldl (insertNew mgr'.testing)
                mgr'.modules } = .ok mgr'
        rw [foldl_insertNew_of_all mgr'.testing mgr'.modules hall]
      · intro k v hv
        rw [← h]
        exact dictGet_foldl mgr.testing (foundModules env sys) mgr.modules hv

theorem discover_modules_idempotent_additive_witness :
    Manager.discover_modules envNothing mgrPost = .ok mgrPost ∧
      dictGet mgrPost.modules "aw-server" = some mRunning :=
  ⟨(discover_modules_idempotent_additive envNothing mgrPre mgrPost rfl).1,
   (discover_modules_idempotent_additive envNothing mgrPre mgrPost rfl).2
     "aw-server" mRunning rfl⟩

/-- C4: when the bundled pass and the system pass both find no candidates,
`discover_modules` still leaves the three hardcoded required names as keys of
the modules mapping. -/
theorem discover_modules_required_present (env : Env) (mgr mgr' : Manager)
    (hb : _discover_modules_bundled env = [])
    (hs : _discover_modules_system env = .ok [])
    (h : Manager.discover_modules env mgr = .ok mgr') :
    hasKey mgr'.modules "aw-server" = true ∧
      hasKey mgr'.modules "aw-watcher-afk" = true ∧
      hasKey mgr'.modules "aw-watcher-window" = true := by
  unfold Manager.discover_modules at h
  rw [hs] at h
  injection h with h
  have hf : foundModules env [] =
      ["aw-server", "aw-watcher-afk", "aw-watcher-window", "aw-qt"] := by
    unfold foundModules
    rw [hb]
    decide
  have key : ∀ n ∈ ["aw-server", "aw-watcher-afk", "aw-watcher-window", "aw-qt"],
      hasKey mgr'.modules n = true := by
    intro n hn
    rw [← h]
    show hasKey ((foundModules env []).foldl (insertNew mgr.testing) mgr.modules)
        n = true
    rw [hf]
    exact hasKey_foldl_mem mgr.testing hn mgr.modules
  exact ⟨key _ (by decide), key _ (by decide), key _ (by decide)⟩

theorem discover_modules_required_present_witness :
    hasKey mgrRes.modules "aw-server" = true ∧
      hasKey mgrRes.modules "aw-watcher-afk" = true ∧
      hasKey mgrRes.modules "aw-watcher-window" = true :=
  discover_modules_required_present envNothing mgrEmpty mgrRes rfl rfl rfl

/-- C5: `_locate_executable` resolves in a fixed order with the first match
winning: a regular file named `name` in the supervisor's own directory wins;
else one in the parent directory; else, if an executable with that exact name
is on the system search path, the bare unresolved `name` is returned; else the
result is `none` (after a logged warning) — the function is total, it raises
nothing. -/
theorem locate_executable_resolution_order (env : Env) (name : String) :
    (env.isFile (joinPath env.moduleDir name) = true →
      _locate_executable env name = some (joinPath env.moduleDir name)) ∧
    (env.isFile (joinPath env.moduleDir name) = false →
      env.isFile (joinPath env.parentDir name) = true →
      _locate_executable env name = some (joinPath env.parentDir name)) ∧
    (env.isFile (joinPath env.moduleDir name) = false →
      env.isFile (joinPath env.parentDir name) = false →
      env.whichOk name = true →
      _locate_executable env name = some name) ∧
    (env.isFile (joinPath env.moduleDir name) = false →
      env.isFile (joinPath env.parentDir name) = false →
      env.whichOk name = false →
      _locate_executable env name = none) := by
  unfold _locate_executable _locate_bundled_executable _is_system_module
    _search_paths
  refine ⟨fun h1 => ?_, fun h1 h2 => ?_, fun h1 h2 h3 => ?_, fun h1 h2 h3 => ?_⟩
  · simp [List.find?, h1]
  · simp [List.find?, h1, h2]
  · simp [List.find?, h1, h2, h3]
  · simp [List.find?, h1, h2, h3]

theorem locate_executable_resolution_order_witness :
    _locate_executable envServerOnPath "aw-server" = some "aw-server" :=
  (locate_executable_resolution_order envServerOnPath "aw-server").2.2.1 rfl rfl rfl

/-- C6: when the locator cannot resolve a module's executable, `start()`
returns with the `Module` completely unchanged; in particular, for a stopped
module (no started flag, no process handle) the flag stays cleared, no handle
is created, and `is_alive` still reports `false`. -/
theorem start_unresolvable_no_state_change (env : Env) (m : Module)
    (hloc : _locate_executable env m.name = none)
    (hs : m.started = false) (hp : m.process = none) :
    Module.start env m = m ∧ (Module.start env m).started = false ∧
      (Module.start env m).is_alive = false := by
  have hm : Module.start env m = m := by
    unfold Module.start
    rw [hloc]
  refine ⟨hm, ?_, ?_⟩
  · rw [hm]; exact hs
  · rw [hm]
    unfold Module.is_alive
    rw [hp]

theorem start_unresolvable_no_state_change_witness :
    Module.start envNothing (Module.init "aw-server" false) =
        Module.init "aw-server" false ∧
      (Module.start envNothing (Module.init "aw-server" false)).started = false ∧
      (Module.start envNothing (Module.init "aw-server" false)).is_alive = false :=
  start_unresolvable_no_state_change envNothing (Module.init "aw-server" false)
    rfl rfl rfl

/-- C7: `stop()` on a non-started module is a no-op (after a logged warning);
on a started module — whether or not the process is still alive — it returns
with the current handle moved into the last-handle slot (terminated first when
it was still alive), the current handle cleared, the started flag reset, and
`is_alive` reporting `false`. -/
theorem stop_contract (m : Module) :
    (m.started = false → Module.stop m = m) ∧
    (m.started = true →
      ((Module.stop m).started = false ∧
       (Module.stop m).process = none ∧
       (Module.stop m).is_alive = false ∧
       (m.is_alive = false → (Module.stop m).lastProcess = m.process) ∧
       (m.is_alive = true →
         (Module.stop m).lastProcess =
           m.process.map (fun p => { p with returncodeIsNone := false })))) := by
  constructor
  · intro h
    unfold Module.stop
    rw [if_pos h]
  · intro h
    unfold Module.stop
    rw [if_neg (by simp [h])]
    by_cases ha : m.is_alive = false
    · rw [if_pos ha]
      exact ⟨rfl, rfl, rfl, fun _ => rfl,
        fun ha' => absurd ha' (by simp [ha])⟩
    · rw [if_neg ha]
      exact ⟨rfl, rfl, rfl, fun ha' => absurd ha' ha, fun _ => rfl⟩

theorem stop_contract_witness :
    (Module.stop mRunning).started = false ∧
      (Module.stop mRunning).process = none ∧
      (Module.stop mRunning).is_alive = false :=
  ⟨((stop_contract mRunning).2 rfl).1, ((stop_contract mRunning).2 rfl).2.1,
   ((stop_contract mRunning).2 rfl).2.2.1⟩

/-- C8: whenever the requested set contains `"aw-server"`, the sequence of
`start` calls `autostart` makes begins with `"aw-server"` — its `start`
completes before any other requested module's `start` is attempted, since the
calls are strictly sequential — and the calls that follow are exactly the
requested names other than `"aw-server"` (each exactly once, order
unspecified); the resulting state is the fold of `start` over that sequence,
seeded with the state right after the server's own `start` returned. -/
theorem autostart_starts_server_first (names : List String)
    (h : "aw-server" ∈ names) :
    Manager.autostart_trace names = "aw-server" :: autostartRest names ∧
      "aw-server" ∉ autostartRest names ∧
      (∀ n, n ∈ autostartRest names ↔ (n ∈ names ∧ n ≠ "aw-server")) ∧
      (∀ env mgr, Manager.autostart env mgr names =
        (autostartRest names).foldl (fun acc n => Manager.start env acc n)
          (Manager.start env mgr "aw-server")) := by
  have hc : names.contains "aw-server" = true := List.elem_iff.mpr h
  refine ⟨?_, ?_, ?_, ?_⟩
  · unfold Manager.autostart_trace autostartRest
    rw [hc]
    rfl
  · unfold autostartRest
    simp [List.mem_filter]
  · intro n
    unfold autostartRest
    simp [List.mem_filter, List.mem_dedup, bne_iff_ne]
  · intro env mgr
    unfold Manager.autostart Manager.autostart_trace autostartRest
    rw [hc]
    rfl

theorem autostart_starts_server_first_witness :
    Manager.autostart_trace ["aw-watcher-afk", "aw-server"] =
        "aw-server" :: autostartRest ["aw-watcher-afk", "aw-server"] ∧
      "aw-server" ∉ autostartRest ["aw-watcher-afk", "aw-server"] ∧
      "aw-watcher-afk" ∈ autostartRest ["aw-watcher-afk", "aw-server"] :=
  ⟨(autostart_starts_server_first ["aw-watcher-afk", "aw-server"] (by simp)).1,
   (autostart_starts_server_first ["aw-watcher-afk", "aw-server"] (by simp)).2.1,
   ((autostart_starts_server_first ["aw-watcher-afk", "aw-server"] (by simp)).2.2.1
      "aw-watcher-afk").mpr ⟨by simp, by decide⟩⟩

/-- C9: `get_unexpected_stops` returns exactly the registry's modules with the
started flag set whose process is no longer alive: a module is in its result
iff it is one of the registry's values, `started = true`, and
`is_alive = false` (so an explicitly stopped module, whose flag was cleared,
is excluded). -/
theorem get_unexpected_stops_spec (mgr : Manager) (m : Module) :
    m ∈ Manager.get_unexpected_stops mgr ↔
      (m ∈ mgr.modules.map Prod.snd ∧ m.started = true ∧ m.is_alive = false) := by
  unfold Manager.get_unexpected_stops
  simp [List.mem_filter, Bool.and_eq_true, Bool.not_eq_true', and_assoc]

/-- C10: `stop_all` only stops modules that are currently alive, so an entry
whose process has already terminated is carried over completely untouched —
same key, same `Module` value (started flag included) — and a crashed module
(started but dead) therefore still shows up in `get_unexpected_stops` after
`stop_all`. -/
theorem stop_all_skips_dead_modules (mgr : Manager) (k : String) (m : Module)
    (hm : (k, m) ∈ mgr.modules) (hdead : m.is_alive = false) :
    (k, m) ∈ (Manager.stop_all mgr).modules ∧
      (m.started = true → m ∈ Manager.get_unexpected_stops (Manager.stop_all mgr)) := by
  have hmem : (k, m) ∈ (Manager.stop_all mgr).modules := by
    unfold Manager.stop_all
    refine List.mem_map.mpr ⟨(k, m), hm, ?_⟩
    simp [hdead]
  refine ⟨hmem, fun hst => ?_⟩
  unfold Manager.get_unexpected_stops
  refine List.mem_filter.mpr ⟨List.mem_map.mpr ⟨(k, m), hmem, rfl⟩, ?_⟩
  simp [hst, hdead]

theorem stop_all_skips_dead_modules_witness :
    ("aw-watcher-afk", mCrashed) ∈ (Manager.stop_all mgrCrashed).modules ∧
      mCrashed ∈ Manager.get_unexpected_stops (Manager.stop_all mgrCrashed) :=
  ⟨(stop_all_skips_dead_modules mgrCrashed "aw-watcher-afk" mCrashed (by simp [mgrCrashed])
      rfl).1,
   (stop_all_skips_dead_modules mgrCrashed "aw-watcher-afk" mCrashed (by simp [mgrCrashed])
      rfl).2 rfl⟩

end AwQt
